import Mathlib

/-!
# Verification of the ibmcloud-agents routing/delegation core

Shallow embedding of the supervisor-agent delegation core of the
`ibmcloud-agents` repository:

* `src/common/simple_a2a_client.py` — `SimpleA2AClient`,
  `RemoteAgentConnection`, and the client-side data model,
* `src/supervisor_agent/supervisor_handler.py` — `SupervisorHandler`
  (`_connect_to_agents`, `_ensure_connections`, `_select_agent`,
  `_delegate_to_agent`, `process_task`),
* the team-management registry operations (`add_team_member`,
  `remove_team_member`), whose handler bodies are exercised by
  `tests/unit/supervisor_agent/test_team_management.py` and called from
  `src/supervisor_agent/team_management.py` but are not present in the
  source tree; those two operations are modelled from the specification.

Network transports, the routing LLM, and the session store are external
collaborators; they enter the model as explicit parameters (an
`Except`/`Option` outcome standing for the raw response or the raised
exception).  Python `dict` literals from the wire protocol are modelled as
structures whose fields are `Option`s (a missing key is `none`).
-/

/-! ## Python string helpers

`str.lower` and `str.strip` as used by `_select_agent`
(`selected = response.choices[0].message.content.strip().lower()`),
modelled directly over the character list. -/

/-- Python `str.lower()` on a string. -/
def pyLower (s : String) : String := ⟨s.data.map Char.toLower⟩

/-- Python `str.strip()`: drop whitespace from both ends. -/
def pyStrip (s : String) : String :=
  ⟨((s.data.dropWhile Char.isWhitespace).reverse.dropWhile Char.isWhitespace).reverse⟩

/-! ## Client data model (`src/common/simple_a2a_client.py`) -/

/-- `TaskState` enumeration of the simple A2A client. -/
inductive ClientTaskState where
  | pending
  | running
  | completed
  | failed
  | cancelled
  | inputRequired
deriving DecidableEq

/-- `TaskState(value)`: Python enum lookup by value string; `none` models the
`ValueError` raised for an unknown value. -/
def parseTaskState (s : String) : Option ClientTaskState :=
  if s = "pending" then some .pending
  else if s = "running" then some .running
  else if s = "completed" then some .completed
  else if s = "failed" then some .failed
  else if s = "cancelled" then some .cancelled
  else if s = "input_required" then some .inputRequired
  else none

/-- `AgentCard`: agent metadata fetched from the well-known endpoint.
The only capability read anywhere is `capabilities.get("streaming", False)`,
so `capabilities` is modelled by that single boolean (the `version` field is
never read by the delegation core and is dropped). -/
structure AgentCard where
  name : String
  description : String
  streaming : Bool
deriving DecidableEq

/-- Client `Message` (role + content; the `metadata` passthrough is never read
by the delegation core and is dropped). -/
structure ClientMessage where
  role : String
  content : String
deriving DecidableEq

/-- Client `TaskResponse`. -/
structure TaskResponse where
  id : String
  state : ClientTaskState
  message : Option ClientMessage := none
  error : Option String := none
  artifacts : Option (List String) := none
deriving DecidableEq

/-! Raw JSON of a unary `POST /task` response, as read by
`SimpleA2AClient.send_task`: `data.get("result", {})`,
`result.get("status", {})`, `status["message"]["parts"][i].get("text")`. -/

/-- Raw message inside a unary response status: `role` and `parts`, each part
an optional `text` field. -/
structure RawUnaryMessage where
  role : Option String
  parts : List (Option String)
deriving DecidableEq

/-- Raw `status` object of a unary response. -/
structure RawUnaryStatus where
  state : Option String
  message : Option RawUnaryMessage
  error : Option String
deriving DecidableEq

/-- Raw `result` object of a unary response. -/
structure RawUnaryResult where
  id : Option String
  status : Option RawUnaryStatus
  artifacts : Option (List String)
deriving DecidableEq

/-- Raw JSON body of a 2xx unary response. -/
structure RawUnary where
  result : Option RawUnaryResult
deriving DecidableEq

/-- Text extraction of `send_task`: concatenate the `text` field of every part
that has one (`for part in msg.get("parts", []): if "text" in part: ...`). -/
def concatParts (parts : List (Option String)) : String :=
  parts.foldl (fun acc p => match p with | some t => acc ++ t | none => acc) ""

/-- `SimpleA2AClient.send_task`.  `transport` is the outcome of the HTTP
round-trip: `.error e` models `aiohttp.ClientError` / any raised exception
with message `e` (including non-2xx from `raise_for_status`), `.ok data` a
2xx JSON body.  The enum construction `TaskState(status.get("state",
"completed"))` raises on an unknown state string; that exception is caught by
the same `except` and converted to a failed response. -/
def clientSendTask (reqId : String) (transport : Except String RawUnary) : TaskResponse :=
  match transport with
  | .error e => { id := reqId, state := .failed, error := some e }
  | .ok data =>
    let result := data.result.getD ⟨none, none, none⟩
    let status := result.status.getD ⟨none, none, none⟩
    let responseMessage : Option ClientMessage :=
      match status.message with
      | none => none
      | some msg =>
        let content := concatParts msg.parts
        if content = "" then none
        else some ⟨msg.role.getD "assistant", content⟩
    match parseTaskState (status.state.getD "completed") with
    | none =>
      -- ValueError from TaskState(...) caught by the generic except clause
      { id := reqId, state := .failed,
        error := some ((status.state.getD "completed") ++ " is not a valid TaskState") }
    | some st =>
      { id := result.id.getD reqId, state := st, message := responseMessage,
        error := status.error, artifacts := some (result.artifacts.getD []) }

/-! Raw streaming events, as consumed by `_delegate_to_agent`:
only `event["result"]["status"]["message"]["content"]` and
`event.get("final")` are read, plus the `error`/`state` keys of the dict the
client yields on a transport failure. -/

/-- Raw message inside a streaming status update (only `content` is read:
`status["message"].get("content", "")`). -/
structure RawStreamMessage where
  content : Option String
deriving DecidableEq

/-- Raw `status` object of a streaming event. -/
structure RawStreamStatus where
  message : Option RawStreamMessage
deriving DecidableEq

/-- Raw `result` object of a streaming event.  The unary-fallback event built
by `RemoteAgentConnection.send_task_streaming` wraps `asdict(response)`,
which has no `status` key, hence `status : Option _`. -/
structure RawStreamResult where
  status : Option RawStreamStatus
deriving DecidableEq

/-- One event yielded by `send_task_streaming`: a JSON object with optional
`result`, truthy-or-absent `final`, and the `error`/`state` keys used by the
client's transport-failure dict `{"error": str(e), "state": "failed"}`. -/
structure StreamEvent where
  result : Option RawStreamResult
  final : Bool
  error : Option String := none
  state : Option String := none
deriving DecidableEq

/-- `SimpleA2AClient.send_task_streaming`.  The transport is modelled by the
list of well-formed SSE events delivered before the connection (possibly)
fails, plus an optional failure message: on `aiohttp.ClientError` or any
other exception the generator appends `{"error": str(e), "state":
"failed"}` and ends.  (Lines that fail to parse are skipped with a warning
and yield nothing, so they simply do not appear in the delivered list.) -/
def clientSendTaskStreaming (delivered : List StreamEvent) (failure : Option String) :
    List StreamEvent :=
  match failure with
  | none => delivered
  | some e => delivered ++ [{ result := none, final := false,
                              error := some e, state := some "failed" }]

/-! ## `RemoteAgentConnection` -/

instance {ε α : Type} [DecidableEq ε] [DecidableEq α] : DecidableEq (Except ε α)
  | .error a, .error b =>
    if h : a = b then isTrue (by rw [h]) else isFalse (by intro hh; cases hh; exact h rfl)
  | .error _, .ok _ => isFalse (by intro h; cases h)
  | .ok _, .error _ => isFalse (by intro h; cases h)
  | .ok a, .ok b =>
    if h : a = b then isTrue (by rw [h]) else isFalse (by intro hh; cases hh; exact h rfl)

/-- State of one `RemoteAgentConnection` together with the behaviour of its
remote peer.  `connected` is `_connected`; `hasCard` is the truthiness of
`self.card`; `cardStreaming` is `card.capabilities.get("streaming", False)`.
`unaryTransport`, `streamDelivered`, `streamFailure` describe what the
underlying `SimpleA2AClient` would observe on the wire for this request. -/
structure ConnModel where
  connected : Bool
  hasCard : Bool
  cardStreaming : Bool
  unaryTransport : Except String RawUnary
  streamDelivered : List StreamEvent
  streamFailure : Option String
deriving DecidableEq

/-- `RemoteAgentConnection.supports_streaming`:
`self.card and self.card.capabilities.get("streaming", False)`. -/
def supportsStreaming (c : ConnModel) : Bool := c.hasCard && c.cardStreaming

/-- `RemoteAgentConnection.connect`: fetch the agent card; on success return
`True` with `_connected` set, on any exception return `False` with
`_connected` cleared.  Result: (return value, card, `_connected`). -/
def racConnect (fetch : Except String AgentCard) : Bool × Option AgentCard × Bool :=
  match fetch with
  | .ok card => (true, some card, true)
  | .error _ => (false, none, false)

/-- `RemoteAgentConnection.send_task`.  The boolean records whether the
underlying client (and hence the network) was used. -/
def racSendTask (c : ConnModel) (reqId : String) : TaskResponse × Bool :=
  if !c.connected then
    ({ id := reqId, state := .failed, error := some "Not connected to agent" }, false)
  else
    (clientSendTask reqId c.unaryTransport, true)

/-- `RemoteAgentConnection.send_task_streaming`.  Not connected: yield the
single error dict and return.  Connected but no streaming support: one
wrapped unary response `{"result": asdict(response), "final": True}` —
`asdict(TaskResponse)` has no `status` key, hence `result := some ⟨none⟩`.
Otherwise forward the client's stream.  The boolean records network use. -/
def racSendTaskStreaming (c : ConnModel) (reqId : String) : List StreamEvent × Bool :=
  if !c.connected then
    ([{ result := none, final := false,
        error := some "Not connected to agent", state := some "failed" }], false)
  else if !(supportsStreaming c) then
    let r := racSendTask c reqId
    ([{ result := some ⟨none⟩, final := true }], r.2)
  else
    (clientSendTaskStreaming c.streamDelivered c.streamFailure, true)


/-! ## Supervisor delegation engine (`src/supervisor_agent/supervisor_handler.py`) -/

/-- The `a2a_json_rpc` task states used by the supervisor
(`TaskState.RUNNING`, `TaskState.COMPLETED`, `TaskState.FAILED`). -/
inductive SupState where
  | running
  | completed
  | failed
deriving DecidableEq

/-- One `TaskStatusUpdateEvent` yielded by the supervisor.  Every event built
by `process_task` / `_delegate_to_agent` carries either no message or a
`Message(role="assistant", parts=[TextPart(text=...)])` with exactly one text
part; `text` is that part (`none` when `message=None`).
`_delegate_to_agent` yields only status updates, never artifact events. -/
structure SupEvent where
  state : SupState
  text : Option String
deriving DecidableEq

/-- A terminal event (state `completed` or `failed`). -/
def isTerminal (e : SupEvent) : Bool :=
  match e.state with
  | .running => false
  | .completed => true
  | .failed => true

/-- Number of terminal events in an emitted sequence. -/
def countTerminal (es : List SupEvent) : Nat := es.countP isTerminal

/-- Message-text extraction of the streaming loop:
`msg_content = status["message"].get("content", "")`, and a message object is
built only `if msg_content:` (empty string is falsy). -/
def streamText (st : RawStreamStatus) : Option String :=
  match st.message with
  | none => none
  | some m =>
    match m.content with
    | none => none
    | some c => if c = "" then none else some c

/-- The streaming consumption loop of `_delegate_to_agent`: for each event,
if it has `result.status`, yield one status update whose state is `RUNNING`
unless the event is final (then `COMPLETED`); stop after the first final
event (`if event.get('final'): break`). -/
def mapStreamEvents : List StreamEvent → List SupEvent
  | [] => []
  | e :: rest =>
    let here : List SupEvent :=
      match e.result with
      | none => []
      | some r =>
        match r.status with
        | none => []
        | some st => [⟨if e.final then .completed else .running, streamText st⟩]
    here ++ (if e.final then [] else mapStreamEvents rest)

/-- Failure text of the unary branch: `response.error or "Task failed"`
(Python `or`: `None` and the empty string both fall back). -/
def failText (r : TaskResponse) : String :=
  match r.error with
  | none => "Task failed"
  | some e => if e = "" then "Task failed" else e

/-- `SupervisorHandler._delegate_to_agent`.  `c` is the
`self.agent_connections.get(agent_name)` lookup; `reqId` the generated
`uuid4` request id; `sessionAdd` the outcome of `add_ai_response` (an
exception there is caught by the surrounding `try` and yields one extra
failed event).  The boolean records whether the connection's client was
used (a task request reached the network). -/
def delegateToAgent (c : Option ConnModel) (agentName reqId : String)
    (sessionId : Option String) (sessionAdd : Except String Unit) :
    List SupEvent × Bool :=
  match c with
  | none => ([⟨.failed, some ("Agent " ++ agentName ++ " is not available")⟩], false)
  | some conn =>
    let body : List SupEvent × Bool :=
      if supportsStreaming conn then
        let s := racSendTaskStreaming conn reqId
        (mapStreamEvents s.1, s.2)
      else
        let r := racSendTask conn reqId
        (if r.1.state = .failed then
          [⟨.failed, some (failText r.1)⟩]
        else
          [⟨.completed, r.1.message.map ClientMessage.content⟩], r.2)
    let events : List SupEvent :=
      if sessionId.isSome && conn.hasCard then
        match sessionAdd with
        | .ok _ => body.1
        | .error e =>
          body.1 ++ [⟨.failed, some ("Error delegating to " ++ agentName ++ ": " ++ e)⟩]
      else body.1
    (events, body.2)

/-- `SupervisorHandler._select_agent`.  `conns` is `self.agent_connections`
as an insertion-ordered association list; `policy` the outcome of the
`acompletion` routing call (`.error` models a raised exception, `.ok` the
returned content string).  Result: the selected agent name (or `None`) and
whether the routing LLM call was reached. -/
def selectAgent (conns : List (String × ConnModel)) (policy : Except String String) :
    Option String × Bool :=
  if conns.isEmpty then (none, false)
  else
    match policy with
    | .error _ =>
      -- except branch: return list(self.agent_connections.keys())[0]
      (conns.head?.map Prod.fst, true)
    | .ok ans =>
      let selected := pyLower (pyStrip ans)
      match conns.find? (fun p => pyLower p.1 == selected) with
      | some p => (some p.1, true)
      | none =>
        if (conns.map Prod.fst).contains "ibmcloud_base_agent" then
          (some "ibmcloud_base_agent", true)
        else
          (conns.head?.map Prod.fst, true)

/-- `self.agent_connections.get(agent_name)`. -/
def lookupConn (conns : List (String × ConnModel)) (name : String) : Option ConnModel :=
  (conns.find? (fun p => p.1 == name)).map Prod.snd

/-- `SupervisorHandler.process_task`.  `pre` is the outcome of the work done
before the first yield (`_ensure_connections` and `add_user_message`): an
exception there is caught by the outer `try` and yields the single
`"Error: ..."` failed event.  A failure fetching session history is caught
locally and never aborts the request, so it does not appear.  The boolean
records whether any connection was contacted. -/
def processTask (pre : Except String Unit) (conns : List (String × ConnModel))
    (policy : Except String String) (reqId : String)
    (sessionId : Option String) (sessionAdd : Except String Unit) :
    List SupEvent × Bool :=
  match pre with
  | .error e => ([⟨.failed, some ("Error: " ++ e)⟩], false)
  | .ok _ =>
    match (selectAgent conns policy).1 with
    | none =>
      ([⟨.running, some "Analyzing your request..."⟩,
        ⟨.failed, some "No suitable agent available to handle this request."⟩], false)
    | some a =>
      let d := delegateToAgent (lookupConn conns a) a reqId sessionId sessionAdd
      (⟨.running, some "Analyzing your request..."⟩ ::
       ⟨.running, some ("Delegating to " ++ a ++ " agent...")⟩ :: d.1, d.2)


/-! ## Registry initialization (`SupervisorHandler._connect_to_agents`) -/

/-- One `agent_registry` entry written by `_connect_to_agents`. -/
structure RegEntry where
  name : String
  description : String
  url : String
  streaming : Bool
deriving DecidableEq

/-- Python `dict` assignment `d[k] = v` on an insertion-ordered association
list: an existing key keeps its position and gets the new value, a new key is
appended. -/
def dinsert {α : Type} (k : String) (v : α) : List (String × α) → List (String × α)
  | [] => [(k, v)]
  | (k', v') :: rest => if k' = k then (k', v) :: rest else (k', v') :: dinsert k v rest

/-- Python `dict` lookup `d.get(k)`. -/
def dlookup {α : Type} (k : String) : List (String × α) → Option α
  | [] => none
  | (k', v') :: rest => if k' = k then some v' else dlookup k rest

/-- The two supervisor maps filled by `_connect_to_agents`:
`agent_connections : name → connection` (a connection is identified by the
URL it was opened to) and `agent_registry : name → entry`. -/
structure ConnMaps where
  conns : List (String × String)
  registry : List (String × RegEntry)
deriving DecidableEq

/-- One iteration of the `for url in self.agent_urls` loop: `discover url`
is the outcome of `RemoteAgentConnection(url).connect()` (`some card` on
success; `none` covers both a `False` return and a raised exception, which
is caught and logged).  On success both maps are assigned under the
peer-reported `connection.card.name` — with no conflict resolution. -/
def connectStep (discover : String → Option AgentCard) (st : ConnMaps) (url : String) :
    ConnMaps :=
  match discover url with
  | none => st
  | some card =>
    { conns := dinsert card.name url st.conns
      registry := dinsert card.name
        ⟨card.name, card.description, url, card.streaming⟩ st.registry }

/-- `SupervisorHandler._connect_to_agents`: fold the connection loop over the
configured URL list, starting from the empty maps of `__init__`. -/
def connectToAgents (urls : List String) (discover : String → Option AgentCard) : ConnMaps :=
  urls.foldl (connectStep discover) ⟨[], []⟩

/-- Number of URLs whose connection attempt succeeded. -/
def successCount (urls : List String) (discover : String → Option AgentCard) : Nat :=
  urls.countP (fun u => (discover u).isSome)

/-! ## The initialization gate (`SupervisorHandler._ensure_connections`)

`_ensure_connections` is

    if not self._connections_initialized:
        await self._connect_to_agents()
        self._connections_initialized = True

`_connect_to_agents` awaits network calls, so on the single-threaded event
loop a second task can run between the flag check and the flag assignment.
The gate is modelled as a two-task interleaving machine: each task checks
the flag (one atomic step, entering the body if the flag is clear), then
finishes the body and sets the flag (a later step — the body spans at least
one suspension point).  `runs` counts executions of `_connect_to_agents`. -/

/-- Program counter of one task calling `_ensure_connections`. -/
inductive GatePC where
  | start
  | inBody
  | done
deriving DecidableEq

/-- Shared flag `_connections_initialized`, the count of
`_connect_to_agents` executions, and both tasks' positions. -/
structure GateState where
  flag : Bool
  runs : Nat
  pc0 : GatePC
  pc1 : GatePC
deriving DecidableEq

/-- Advance one task (`false` = task 0, `true` = task 1) by one atomic step. -/
def gateStep (s : GateState) (t : Bool) : GateState :=
  let pc := if t then s.pc1 else s.pc0
  let upd := fun (s' : GateState) (pc' : GatePC) =>
    if t then { s' with pc1 := pc' } else { s' with pc0 := pc' }
  match pc with
  | .start => if s.flag then upd s .done else upd { s with runs := s.runs + 1 } .inBody
  | .inBody => upd { s with flag := true } .done
  | .done => s

/-- Run a schedule (list of task choices) from the initial state:
flag clear, no runs, both tasks about to call `_ensure_connections`. -/
def gateRun (sched : List Bool) : GateState :=
  sched.foldl gateStep ⟨false, 0, .start, .start⟩


/-! ## Team management registry operations

The handler methods `add_team_member` / `remove_team_member` are called from
`src/supervisor_agent/team_management.py` and exercised by
`tests/unit/supervisor_agent/test_team_management.py`, but their bodies are
not in the source tree; they are modelled from the specification (sections
4.2 Connection Registry and 3 Data Model). -/

/-- Modelled from the spec: provenance of a registry entry — `configured`
(provisioned at construction from the static URL list) or `dynamic` (added
at runtime). -/
inductive Provenance where
  | configured
  | dynamic
deriving DecidableEq

/-- Modelled from the spec: one registry entry of the team-management
surface (`AgentDescriptor`): unique `name`, `url`, `description`,
`streaming`, `provenance`, and `added_at` (set only for dynamic entries;
timestamps are abstract naturals). -/
structure TMEntry where
  name : String
  url : String
  description : String
  streaming : Bool
  provenance : Provenance
  addedAt : Option Nat
deriving DecidableEq

/-- The registry as an insertion-ordered list of entries (a Python dict
keyed by `name`). -/
abbrev TMRegistry := List TMEntry

/-- Structured success/failure result of a mutating team operation. -/
structure TMResult where
  success : Bool
  agentName : Option String := none
  error : Option String := none
deriving DecidableEq

/-- The registry's key set. -/
def tmNames (reg : TMRegistry) : List String := reg.map TMEntry.name

/-- The names of configured entries (the statically provisioned topology). -/
def configuredNames (reg : TMRegistry) : List String :=
  (reg.filter (fun e => e.provenance == Provenance.configured)).map TMEntry.name

/-- Modelled from the spec: the candidate sequence of name-conflict
resolution — the provisional name itself, then `name_1`, `name_2`, ... . -/
def tmCandidate (base : String) : Nat → String
  | 0 => base
  | Nat.succ i => base ++ "_" ++ Nat.repr (i + 1)

/-- Modelled from the spec: scan the candidate sequence from index `i`
upward for a name not yet in `keys`; `fuel` bounds the scan (the caller
passes `keys.length + 1`, enough for a fresh candidate to exist). -/
def tmFreshAux (keys : List String) (base : String) : Nat → Nat → Option String
  | 0, _ => none
  | Nat.succ fuel, i =>
    if keys.contains (tmCandidate base i) then tmFreshAux keys base fuel (i + 1)
    else some (tmCandidate base i)

/-- Modelled from the spec: "if that name already exists in the registry,
append a numeric suffix (`_1`, `_2`, ...) until unique". -/
def tmFreshName (keys : List String) (base : String) : Option String :=
  tmFreshAux keys base (keys.length + 1) 0

/-- Modelled from the spec: `add_team_member(agent_url, agent_name)`
(absent from the source tree; spec 4.2 `add`).  Rejects a URL that already
matches an existing entry (echoing the existing entry's name); otherwise
connects — `connectResult` is the outcome of
`RemoteAgentConnection(url).connect()` — and on success stores a new
`dynamic` entry under the conflict-resolved name, `added_at := now`.
On connection failure nothing is added. -/
def addMember (reg : TMRegistry) (url : String) (requestedName : Option String)
    (connectResult : Option AgentCard) (now : Nat) : TMResult × TMRegistry :=
  match reg.find? (fun e => e.url == url) with
  | some e =>
    ({ success := false, agentName := some e.name,
       error := some ("Agent at " ++ url ++ " already connected") }, reg)
  | none =>
    match connectResult with
    | none =>
      ({ success := false, error := some ("Failed to connect to agent at " ++ url) }, reg)
    | some card =>
      let base := requestedName.getD card.name
      match tmFreshName (tmNames reg) base with
      | none => ({ success := false, error := some "Could not resolve a unique name" }, reg)
      | some n =>
        ({ success := true, agentName := some n },
         reg ++ [⟨n, url, card.description, card.streaming, .dynamic, some now⟩])

/-- Modelled from the spec: `remove_team_member(agent_name)` (absent from
the source tree; spec 4.2 `remove`).  Fails if the name is absent or names
a configured entry; otherwise closes the connection (close-time errors are
swallowed, so closing does not affect the result) and deletes the entry. -/
def removeMember (reg : TMRegistry) (name : String) : TMResult × TMRegistry :=
  match reg.find? (fun e => e.name == name) with
  | none =>
    ({ success := false, error := some ("Agent " ++ name ++ " not found") }, reg)
  | some e =>
    match e.provenance with
    | .configured =>
      ({ success := false,
         error := some ("Agent " ++ name ++
           " is a configured agent and cannot be removed dynamically") }, reg)
    | .dynamic =>
      ({ success := true, agentName := some name },
       reg.eraseP (fun e' => e'.name == name))

/-- One runtime team-management mutation, with the behaviour of its external
collaborators (connect outcome, clock) attached. -/
inductive TMOp where
  | add (url : String) (requestedName : Option String)
        (connectResult : Option AgentCard) (now : Nat)
  | remove (name : String)

/-- Apply one operation to the registry. -/
def applyOp (reg : TMRegistry) : TMOp → TMRegistry
  | .add url rn res now => (addMember reg url rn res now).2
  | .remove name => (removeMember reg name).2

/-- Apply a finite sequence of add/remove operations. -/
def applyOps (reg : TMRegistry) (ops : List TMOp) : TMRegistry :=
  ops.foldl applyOp reg


/-! ## Claim theorems -/

/-- **C5.** For every delegation started while the registry holds zero
connected agents, `process_task` emits exactly the `running` analysis event
followed by one terminal `failed` event carrying the
"No suitable agent available" message, whatever the routing policy would
have answered; `_select_agent` returns before the LLM call is reached, so
the policy is never invoked. -/
theorem c5_empty_registry_fails_without_policy :
    ∀ (policy : Except String String) (reqId : String) (sessionId : Option String)
      (sessionAdd : Except String Unit),
      processTask (.ok ()) [] policy reqId sessionId sessionAdd
        = ([⟨.running, some "Analyzing your request..."⟩,
            ⟨.failed, some "No suitable agent available to handle this request."⟩], false)
      ∧ countTerminal (processTask (.ok ()) [] policy reqId sessionId sessionAdd).1 = 1
      ∧ (selectAgent [] policy).2 = false :=
  fun _ _ _ _ => ⟨rfl, rfl, rfl⟩

/-- **C7.** The remote-connection boundary signals failures instead of
raising: `connect()` returns `False` (with `_connected` cleared) on any
transport or protocol failure of the card fetch, and
`SimpleA2AClient.send_task` converts any transport-level error into a
`TaskResponse` whose state is `failed` and whose `error` field carries the
underlying message; both are total functions of the transport outcome, so
no exception crosses the boundary. -/
theorem c7_failures_signaled_not_thrown :
    (∀ e : String, racConnect (.error e) = (false, none, false))
    ∧ (∀ card : AgentCard, racConnect (.ok card) = (true, some card, true))
    ∧ (∀ reqId e : String,
        clientSendTask reqId (.error e)
          = { id := reqId, state := .failed, error := some e }) :=
  ⟨fun _ => rfl, fun _ => rfl, fun _ _ => rfl⟩

/-- **C10.** On a `RemoteAgentConnection` whose `_connected` flag is false,
`send_task` returns the failed `TaskResponse` with error
"Not connected to agent" and `send_task_streaming` yields exactly the one
event `{error: "Not connected to agent", state: "failed"}` — in both cases
for every underlying transport behaviour, and with the network-use flag
false (the client is never consulted). -/
theorem c10_not_connected_short_circuits :
    ∀ (c : ConnModel) (reqId : String),
      racSendTask { c with connected := false } reqId
        = ({ id := reqId, state := .failed, error := some "Not connected to agent" }, false)
      ∧ racSendTaskStreaming { c with connected := false } reqId
        = ([{ result := none, final := false,
              error := some "Not connected to agent", state := some "failed" }], false) :=
  fun _ _ => ⟨rfl, rfl⟩

/-- **C2** (code bug).  A delegation over a streaming connection whose
transport fails emits zero terminal events: the client's failure dict
`{"error": ..., "state": "failed"}` has no `result` and no `final` key, so
the streaming loop of `_delegate_to_agent` drops it and the event sequence
ends after the two `running` status updates, contradicting the
exactly-one-terminal-event property. -/
theorem c2_stream_transport_failure_no_terminal_event :
    countTerminal
      (processTask (.ok ())
        [("worker", ⟨true, true, true, .ok ⟨none⟩, [], some "Connection refused"⟩)]
        (.ok "worker") "req-1" none (.ok ())).1 = 0
    ∧ (processTask (.ok ())
        [("worker", ⟨true, true, true, .ok ⟨none⟩, [], some "Connection refused"⟩)]
        (.ok "worker") "req-1" none (.ok ()))
      = ([⟨.running, some "Analyzing your request..."⟩,
          ⟨.running, some "Delegating to worker agent..."⟩], true) := by
  decide

/-- **C1** (counterexample).  With `ibmcloud_base_agent` connected and the
routing policy answering the literal sentinel `none`, `_select_agent` does
not report "no suitable agent": it falls through to the default fallback
and returns `ibmcloud_base_agent`, the delegation proceeds (a
"Delegating to ..." status and the peer's completed response are emitted,
and the connection is contacted — network flag `true`), and no
"No suitable agent available" event appears. -/
theorem c1_none_sentinel_counterexample :
    (selectAgent
        [("ibmcloud_base_agent",
          ⟨true, true, false,
           .ok ⟨some ⟨some "resp-1",
                 some ⟨some "completed", some ⟨some "assistant", [some "All done"]⟩, none⟩,
                 some []⟩⟩, [], none⟩)]
        (.ok "none")).1 = some "ibmcloud_base_agent"
    ∧ processTask (.ok ())
        [("ibmcloud_base_agent",
          ⟨true, true, false,
           .ok ⟨some ⟨some "resp-1",
                 some ⟨some "completed", some ⟨some "assistant", [some "All done"]⟩, none⟩,
                 some []⟩⟩, [], none⟩)]
        (.ok "none") "req-1" none (.ok ())
      = ([⟨.running, some "Analyzing your request..."⟩,
          ⟨.running, some "Delegating to ibmcloud_base_agent agent..."⟩,
          ⟨.completed, some "All done"⟩], true) := by
  decide

/-- **C6** (counterexample).  An interleaving of two first calls to
`_ensure_connections` in which the second caller checks the flag while the
first is suspended inside `_connect_to_agents` runs `_connect_to_agents`
twice: after the schedule task0-check, task1-check, task0-finish,
task1-finish, both callers are done, the flag is set, and the body ran
twice — so every configured URL was connected twice. -/
theorem c6_interleaved_init_counterexample :
    gateRun [false, true, false, true] = ⟨true, 2, .done, .done⟩ := by
  decide

/-- Once the flag is set and one task is done, further steps of the other
task never rerun the body. -/
lemma gateRun_replicate_true (n : Nat) (r : Nat) (pc : GatePC) :
    (List.foldl gateStep ⟨true, r, .done, pc⟩ (List.replicate n true)).runs = r := by
  induction n generalizing pc with
  | zero => rfl
  | succ n ih =>
    rw [List.replicate_succ, List.foldl_cons]
    cases pc
    · exact ih .done
    · exact ih .done
    · exact ih .done

/-- **C6** (amended).  The boolean gate of `_ensure_connections` prevents
re-initialization only for non-overlapping calls: if the first caller runs
`_connect_to_agents` to completion before the second caller's flag check,
the body runs exactly once no matter how long the second caller keeps
running; but two first calls interleaved at a suspension point inside
`_connect_to_agents` each trigger the body, running it twice. -/
theorem c6_init_gate_amended :
    (∀ n : Nat, (gateRun ([false, false] ++ List.replicate n true)).runs = 1)
    ∧ (gateRun [false, true, false, true]).runs = 2 := by
  constructor
  · intro n
    rw [gateRun, List.foldl_append]
    exact gateRun_replicate_true n 1 .start
  · decide

/-- **C8** (counterexample).  When the routing LLM call raises, the
`except` branch of `_select_agent` returns the first connected agent in
iteration order without first preferring `ibmcloud_base_agent`: with
connections `["zesty", "ibmcloud_base_agent"]` and a raised exception, the
selection is `zesty`, not `ibmcloud_base_agent`. -/
theorem c8_exception_fallback_counterexample :
    selectAgent
        [("zesty", ⟨true, true, false, .error "x", [], none⟩),
         ("ibmcloud_base_agent", ⟨true, true, false, .error "x", [], none⟩)]
        (.error "boom")
      = (some "zesty", true) := by
  decide

/-- Reduction of `_select_agent` on a nonempty connection map when the
routing call raises. -/
lemma selectAgent_cons_error (x : String × ConnModel) (xs : List (String × ConnModel))
    (e : String) :
    selectAgent (x :: xs) (.error e) = (some x.1, true) := rfl

/-- Reduction of `_select_agent` on a nonempty connection map when the
routing call answers. -/
lemma selectAgent_cons_ok (x : String × ConnModel) (xs : List (String × ConnModel))
    (ans : String) :
    selectAgent (x :: xs) (.ok ans) =
      match (x :: xs).find? (fun p => pyLower p.1 == pyLower (pyStrip ans)) with
      | some p => (some p.1, true)
      | none =>
        if ((x :: xs).map Prod.fst).contains "ibmcloud_base_agent" then
          (some "ibmcloud_base_agent", true)
        else (some x.1, true) := rfl

/-- **C8** (amended).  With at least one connected agent, `_select_agent`
always returns the name of some connected agent, so the no-agent result is
reachable only when zero agents are connected.  An unknown answer and the
literal `none` answer fall back to `ibmcloud_base_agent` when it is
connected and otherwise to the first connected agent in iteration order;
an exception from the LLM call falls back directly to the first connected
agent, without preferring `ibmcloud_base_agent`. -/
theorem c8_select_agent_connected :
    (∀ (conns : List (String × ConnModel)) (policy : Except String String),
        (selectAgent conns policy).1 = none → conns = [])
    ∧ (∀ (conns : List (String × ConnModel)) (policy : Except String String),
        conns ≠ [] →
        ∃ n, (selectAgent conns policy).1 = some n ∧ n ∈ conns.map Prod.fst)
    ∧ (∀ (conns : List (String × ConnModel)) (e : String),
        conns ≠ [] →
        (selectAgent conns (.error e)).1 = conns.head?.map Prod.fst)
    ∧ (∀ (conns : List (String × ConnModel)) (ans : String),
        conns ≠ [] →
        conns.find? (fun p => pyLower p.1 == pyLower (pyStrip ans)) = none →
        (selectAgent conns (.ok ans)).1 =
          if (conns.map Prod.fst).contains "ibmcloud_base_agent"
          then some "ibmcloud_base_agent" else conns.head?.map Prod.fst) := by
  refine ⟨?_, ?_, ?_, ?_⟩
  · intro conns policy h
    match conns with
    | [] => rfl
    | x :: xs =>
      exfalso
      cases policy with
      | error e => rw [selectAgent_cons_error] at h; simp at h
      | ok ans =>
        cases hf : (x :: xs).find? (fun p => pyLower p.1 == pyLower (pyStrip ans)) with
        | some p => simp only [selectAgent_cons_ok, hf] at h; simp at h
        | none =>
          simp only [selectAgent_cons_ok, hf] at h
          split at h <;> simp at h
  · intro conns policy h
    match conns with
    | [] => exact absurd rfl h
    | x :: xs =>
      cases policy with
      | error e => exact ⟨x.1, by rw [selectAgent_cons_error], by simp⟩
      | ok ans =>
        cases hf : (x :: xs).find? (fun p => pyLower p.1 == pyLower (pyStrip ans)) with
        | some p =>
          refine ⟨p.1, ?_, List.mem_map_of_mem Prod.fst (List.mem_of_find?_eq_some hf)⟩
          simp only [selectAgent_cons_ok, hf]
        | none =>
          simp only [selectAgent_cons_ok, hf]
          split
          next hb => exact ⟨"ibmcloud_base_agent", rfl, by simpa using hb⟩
          next hb => exact ⟨x.1, rfl, by simp⟩
  · intro conns e h
    match conns with
    | [] => exact absurd rfl h
    | x :: xs => rw [selectAgent_cons_error]; rfl
  · intro conns ans h hf
    match conns with
    | [] => exact absurd rfl h
    | x :: xs =>
      simp only [selectAgent_cons_ok, hf]
      split
      next hb => simp [hb]
      next hb => simp [hb]

/-- **C8** (witness).  A concrete two-agent registry where the exception
branch selects the first agent in iteration order. -/
theorem c8_select_agent_connected_witness :
    (selectAgent
        [("zesty", ⟨true, true, false, .error "x", [], none⟩),
         ("ibmcloud_base_agent", ⟨true, true, false, .error "x", [], none⟩)]
        (.error "boom")).1
      = [("zesty", (⟨true, true, false, .error "x", [], none⟩ : ConnModel)),
         ("ibmcloud_base_agent", ⟨true, true, false, .error "x", [], none⟩)].head?.map
          Prod.fst :=
  c8_select_agent_connected.2.2.1
    [("zesty", ⟨true, true, false, .error "x", [], none⟩),
     ("ibmcloud_base_agent", ⟨true, true, false, .error "x", [], none⟩)]
    "boom" (by decide)

/-- **C1** (amended).  When the routing policy returns the literal `none`
and at least one agent is connected (none of which is itself named `none`
case-insensitively), `_select_agent` does not fail: the same fallback as
for an unknown name applies — `ibmcloud_base_agent` when connected,
otherwise the first connected agent in iteration order — and some agent is
always selected, so the delegation proceeds and contacts that agent's
connection.  The "No suitable agent available" failure is reachable only
with zero connected agents; the only behavioural difference of the `none`
answer from an unknown name is the skipped warning log. -/
theorem c1_none_sentinel_falls_back :
    ∀ (conns : List (String × ConnModel)),
      conns ≠ [] →
      conns.find? (fun p => pyLower p.1 == pyLower (pyStrip "none")) = none →
      (selectAgent conns (.ok "none")).1 =
        (if (conns.map Prod.fst).contains "ibmcloud_base_agent"
         then some "ibmcloud_base_agent" else conns.head?.map Prod.fst)
      ∧ (selectAgent conns (.ok "none")).1 ≠ none := by
  intro conns h hf
  match conns with
  | [] => exact absurd rfl h
  | x :: xs =>
    constructor
    · simp only [selectAgent_cons_ok, hf]
      split
      next hb => simp [hb]
      next hb => simp [hb]
    · simp only [selectAgent_cons_ok, hf]
      split
      next hb => simp
      next hb => simp

/-- **C1** (witness).  One connected agent `ibmcloud_base_agent` and the
policy answer `none`: the fallback selects `ibmcloud_base_agent`. -/
theorem c1_none_sentinel_falls_back_witness :
    (selectAgent [("ibmcloud_base_agent", ⟨true, true, false, .error "x", [], none⟩)]
        (.ok "none")).1
      = (if ([("ibmcloud_base_agent",
               (⟨true, true, false, .error "x", [], none⟩ : ConnModel))].map
              Prod.fst).contains "ibmcloud_base_agent"
         then some "ibmcloud_base_agent"
         else [("ibmcloud_base_agent",
                (⟨true, true, false, .error "x", [], none⟩ : ConnModel))].head?.map
                Prod.fst)
      ∧ (selectAgent [("ibmcloud_base_agent", ⟨true, true, false, .error "x", [], none⟩)]
          (.ok "none")).1 ≠ none :=
  c1_none_sentinel_falls_back
    [("ibmcloud_base_agent", ⟨true, true, false, .error "x", [], none⟩)]
    (by decide) (by decide)

/-- Lookup after inserting the same key. -/
lemma dlookup_dinsert_self {α : Type} (k : String) (v : α) (m : List (String × α)) :
    dlookup k (dinsert k v m) = some v := by
  induction m with
  | nil => simp [dinsert, dlookup]
  | cons p rest ih =>
    by_cases h : p.1 = k
    · simp [dinsert, dlookup, h]
    · simp only [dinsert, dlookup]
      rw [if_neg h]
      simp only [dlookup]
      rw [if_neg h]
      exact ih

/-- Lookup after inserting a different key. -/
lemma dlookup_dinsert_ne {α : Type} {k j : String} (h : j ≠ k) (v : α)
    (m : List (String × α)) :
    dlookup k (dinsert j v m) = dlookup k m := by
  induction m with
  | nil => simp [dinsert, dlookup, h]
  | cons p rest ih =>
    by_cases hp : p.1 = j
    · simp only [dinsert]
      rw [if_pos hp]
      simp only [dlookup]
      rw [if_neg (hp ▸ h), if_neg (hp ▸ h)]
    · simp only [dinsert]
      rw [if_neg hp]
      simp only [dlookup]
      by_cases hk : p.1 = k
      · rw [if_pos hk, if_pos hk]
      · rw [if_neg hk, if_neg hk]
        exact ih

/-- A connection-loop iteration over a URL whose discovery does not report
the name `nm` leaves the entries under `nm` untouched. -/
lemma connectStep_preserve (discover : String → Option AgentCard) (st : ConnMaps)
    (v : String) (nm : String) (h : ∀ c, discover v = some c → c.name ≠ nm) :
    dlookup nm (connectStep discover st v).registry = dlookup nm st.registry
    ∧ dlookup nm (connectStep discover st v).conns = dlookup nm st.conns := by
  cases hd : discover v with
  | none => simp [connectStep, hd]
  | some card =>
    have hne : card.name ≠ nm := h card hd
    simp only [connectStep, hd]
    exact ⟨dlookup_dinsert_ne hne _ _, dlookup_dinsert_ne hne _ _⟩

/-- Folding the connection loop over URLs none of which reports the name
`nm` preserves the entries under `nm`. -/
lemma connectFold_preserve (discover : String → Option AgentCard) (nm : String) :
    ∀ (post : List String) (st : ConnMaps),
      (∀ v ∈ post, ∀ c, discover v = some c → c.name ≠ nm) →
      dlookup nm (post.foldl (connectStep discover) st).registry
        = dlookup nm st.registry
      ∧ dlookup nm (post.foldl (connectStep discover) st).conns
        = dlookup nm st.conns := by
  intro post
  induction post with
  | nil => intro st _; exact ⟨rfl, rfl⟩
  | cons v rest ih =>
    intro st h
    rw [List.foldl_cons]
    have hv := connectStep_preserve discover st v nm (h v (by simp))
    have hrest := ih (connectStep discover st v)
      (fun u hu c hc => h u (List.mem_cons_of_mem v hu) c hc)
    exact ⟨hrest.1.trans hv.1, hrest.2.trans hv.2⟩

/-- **C9.**  During `_connect_to_agents`, the later successful connection
wins: if URL `u` succeeds with card `card` and no later URL's peer reports
the same name, both `agent_registry` and `agent_connections` map
`card.name` to `u`'s entry afterwards — whatever earlier URLs (including
other successes under the same name) preceded `u`, their entries under
that name are overwritten without suffix-based conflict resolution.
Consequently the registry can end up with fewer entries than successfully
connected URLs. -/
theorem c9_init_last_connection_wins :
    (∀ (discover : String → Option AgentCard) (pre post : List String) (u : String)
       (card : AgentCard),
       discover u = some card →
       (∀ v ∈ post, ∀ c, discover v = some c → c.name ≠ card.name) →
       dlookup card.name (connectToAgents (pre ++ u :: post) discover).registry
         = some ⟨card.name, card.description, u, card.streaming⟩
       ∧ dlookup card.name (connectToAgents (pre ++ u :: post) discover).conns
         = some u)
    ∧ (∃ (urls : List String) (g : String → Option AgentCard),
        (connectToAgents urls g).registry.length < successCount urls g) := by
  constructor
  · intro discover pre post u card hu hpost
    rw [connectToAgents, List.foldl_append, List.foldl_cons]
    have hmid :
        connectStep discover (List.foldl (connectStep discover) ⟨[], []⟩ pre) u
          = { conns := dinsert card.name u
                (List.foldl (connectStep discover) ⟨[], []⟩ pre).conns
              registry := dinsert card.name
                ⟨card.name, card.description, u, card.streaming⟩
                (List.foldl (connectStep discover) ⟨[], []⟩ pre).registry } := by
      simp [connectStep, hu]
    rw [hmid]
    have hpres := connectFold_preserve discover card.name post
      ⟨dinsert card.name u (List.foldl (connectStep discover) ⟨[], []⟩ pre).conns,
       dinsert card.name ⟨card.name, card.description, u, card.streaming⟩
         (List.foldl (connectStep discover) ⟨[], []⟩ pre).registry⟩ hpost
    exact ⟨hpres.1.trans (dlookup_dinsert_self _ _ _),
           hpres.2.trans (dlookup_dinsert_self _ _ _)⟩
  · exact ⟨["http://a/agent", "http://b/agent"],
      fun _ => some ⟨"dup", "d", false⟩, by decide⟩

/-- **C9** (witness).  Two URLs whose peers report the same card name
`dup`: after initialization the single registry entry under `dup` carries
the second URL in both maps. -/
theorem c9_init_last_connection_wins_witness :
    dlookup "dup"
        (connectToAgents (["http://a/agent"] ++ "http://b/agent" :: [])
          (fun _ => some ⟨"dup", "d", false⟩)).registry
      = some ⟨"dup", "d", "http://b/agent", false⟩
    ∧ dlookup "dup"
        (connectToAgents (["http://a/agent"] ++ "http://b/agent" :: [])
          (fun _ => some ⟨"dup", "d", false⟩)).conns
      = some "http://b/agent" :=
  c9_init_last_connection_wins.1 (fun _ => some ⟨"dup", "d", false⟩)
    ["http://a/agent"] [] "http://b/agent" ⟨"dup", "d", false⟩ rfl
    (by simp)

/-- Appending a dynamic entry does not change the configured names. -/
lemma configuredNames_append_dynamic (reg : TMRegistry) (e : TMEntry)
    (h : e.provenance = .dynamic) :
    configuredNames (reg ++ [e]) = configuredNames reg := by
  simp [configuredNames, List.filter_append, h]

/-- Unfolding of `configuredNames` over a cons cell. -/
lemma configuredNames_cons (x : TMEntry) (xs : TMRegistry) :
    configuredNames (x :: xs) =
      if x.provenance == Provenance.configured then x.name :: configuredNames xs
      else configuredNames xs := by
  simp only [configuredNames, List.filter_cons]
  by_cases h : x.provenance == Provenance.configured
  · rw [if_pos h, if_pos h, List.map_cons]
  · rw [if_neg h, if_neg h]

/-- Erasing the first match of a predicate whose first match is a dynamic
entry does not change the configured names. -/
lemma configuredNames_eraseP (p : TMEntry → Bool) :
    ∀ (reg : TMRegistry) (e : TMEntry),
      reg.find? p = some e → e.provenance = .dynamic →
      configuredNames (reg.eraseP p) = configuredNames reg := by
  intro reg
  induction reg with
  | nil => intro e hf; cases hf
  | cons x xs ih =>
    intro e hf hdyn
    by_cases hx : p x
    · have hex : e = x := by
        rw [List.find?_cons_of_pos _ hx] at hf
        exact (Option.some_inj.mp hf).symm
      rw [List.eraseP_cons_of_pos hx]
      have hxdyn : x.provenance = Provenance.dynamic := hex ▸ hdyn
      rw [configuredNames_cons, hxdyn]
      rfl
    · rw [List.find?_cons_of_neg _ hx] at hf
      rw [List.eraseP_cons_of_neg hx, configuredNames_cons, configuredNames_cons,
        ih e hf hdyn]

/-- Every single team-management mutation preserves the configured names. -/
lemma applyOp_configuredNames (reg : TMRegistry) (op : TMOp) :
    configuredNames (applyOp reg op) = configuredNames reg := by
  cases op with
  | add url rn res now =>
    cases res with
    | none =>
      simp only [applyOp, addMember]
      cases hurl : reg.find? (fun e => e.url == url) with
      | some e => simp only [hurl]
      | none => simp only [hurl]
    | some card =>
      simp only [applyOp, addMember]
      cases hurl : reg.find? (fun e => e.url == url) with
      | some e => simp only [hurl]
      | none =>
        simp only [hurl]
        cases hfr : tmFreshName (tmNames reg) (rn.getD card.name) with
        | none => simp only [hfr]
        | some n =>
          simp only [hfr]
          refine configuredNames_append_dynamic reg _ ?_
          rfl
  | remove name =>
    simp only [applyOp, removeMember]
    cases hf : reg.find? (fun e => e.name == name) with
    | none => simp only [hf]
    | some e =>
      simp only [hf]
      cases hp : e.provenance with
      | configured => simp only [hp]
      | dynamic =>
        simp only [hp]
        exact configuredNames_eraseP _ reg e hf hp

/-- **C3.**  For every registry state and every finite sequence of
add/remove team-management operations, the set of configured agent names
is unchanged afterwards; and `remove_team_member` returns a failure result
with no registry mutation whenever the name is absent or names a
configured agent. -/
theorem c3_configured_names_invariant :
    (∀ (reg : TMRegistry) (ops : List TMOp),
        configuredNames (applyOps reg ops) = configuredNames reg)
    ∧ (∀ (reg : TMRegistry) (name : String),
        (reg.find? (fun e => e.name == name) = none
          ∨ ∃ e, reg.find? (fun e' => e'.name == name) = some e
               ∧ e.provenance = .configured) →
        (removeMember reg name).1.success = false
        ∧ (removeMember reg name).2 = reg) := by
  constructor
  · intro reg ops
    induction ops generalizing reg with
    | nil => rfl
    | cons op rest ih =>
      rw [applyOps, List.foldl_cons]
      exact (ih (applyOp reg op)).trans (applyOp_configuredNames reg op)
  · intro reg name h
    rcases h with hnone | ⟨e, hf, hcfg⟩
    · simp [removeMember, hnone]
    · simp [removeMember, hf, hcfg]

/-- **C3** (witness).  A one-configured-agent registry: an add/remove
sequence leaves the configured names unchanged, and removing the
configured agent fails without mutation. -/
theorem c3_configured_names_invariant_witness :
    configuredNames
        (applyOps [⟨"base", "http://a", "d", false, .configured, none⟩]
          [.add "http://b" none (some ⟨"base", "d2", true⟩) 5, .remove "base"])
      = configuredNames [⟨"base", "http://a", "d", false, .configured, none⟩]
    ∧ (removeMember [⟨"base", "http://a", "d", false, .configured, none⟩] "base").1.success
        = false
    ∧ (removeMember [⟨"base", "http://a", "d", false, .configured, none⟩] "base").2
        = [⟨"base", "http://a", "d", false, .configured, none⟩] := by
  have h2 := c3_configured_names_invariant.2
    [⟨"base", "http://a", "d", false, .configured, none⟩] "base"
    (.inr ⟨⟨"base", "http://a", "d", false, .configured, none⟩, by decide, rfl⟩)
  exact ⟨c3_configured_names_invariant.1
    [⟨"base", "http://a", "d", false, .configured, none⟩]
    [.add "http://b" none (some ⟨"base", "d2", true⟩) 5, .remove "base"],
    h2.1, h2.2⟩

/-- The candidate scan returns the first candidate, from its start index
on, that is not an existing key. -/
lemma tmFreshAux_spec (keys : List String) (base : String) :
    ∀ (fuel i : Nat) (n : String),
      tmFreshAux keys base fuel i = some n →
      ∃ k, i ≤ k ∧ n = tmCandidate base k
        ∧ keys.contains (tmCandidate base k) = false
        ∧ ∀ j, i ≤ j → j < k → keys.contains (tmCandidate base j) = true := by
  intro fuel
  induction fuel with
  | zero => intro i n h; cases h
  | succ fuel ih =>
    intro i n h
    by_cases hc : keys.contains (tmCandidate base i) = true
    · simp only [tmFreshAux, if_pos hc] at h
      obtain ⟨k, hik, hn, hfree, hall⟩ := ih (i + 1) n h
      refine ⟨k, Nat.le_trans (Nat.le_succ i) hik, hn, hfree, ?_⟩
      intro j hij hjk
      rcases Nat.eq_or_lt_of_le hij with heq | hlt
      · exact heq ▸ hc
      · exact hall j hlt hjk
    · simp only [tmFreshAux, if_neg hc] at h
      refine ⟨i, Nat.le_refl i, (Option.some_inj.mp h).symm,
        Bool.eq_false_iff.mpr hc, ?_⟩
      intro j hij hji
      exact absurd (Nat.lt_of_le_of_lt hij hji) (Nat.lt_irrefl i)

/-- **C4.**  Every successful `add_team_member` stores the new entry under
a name that is unique among the registry keys existing at insertion time:
the stored name is the first candidate of the suffix sequence (provisional
name, then `_1`, `_2`, ...) that does not collide — every earlier candidate
was an existing key — and the new entry is appended, so no existing entry
is overwritten. -/
theorem c4_add_resolves_unique_name :
    ∀ (reg : TMRegistry) (url : String) (requestedName : Option String)
      (connectResult : Option AgentCard) (now : Nat),
      (addMember reg url requestedName connectResult now).1.success = true →
      ∃ card n, connectResult = some card
        ∧ (addMember reg url requestedName connectResult now).1.agentName = some n
        ∧ (tmNames reg).contains n = false
        ∧ (∃ k, n = tmCandidate (requestedName.getD card.name) k
            ∧ ∀ j, j < k →
                (tmNames reg).contains
                  (tmCandidate (requestedName.getD card.name) j) = true)
        ∧ (addMember reg url requestedName connectResult now).2
            = reg ++ [⟨n, url, card.description, card.streaming, .dynamic, some now⟩] := by
  intro reg url rn res now h
  cases res with
  | none =>
    exfalso
    cases hurl : reg.find? (fun e => e.url == url) with
    | some e => simp only [addMember, hurl] at h; cases h
    | none => simp only [addMember, hurl] at h; cases h
  | some card =>
    cases hurl : reg.find? (fun e => e.url == url) with
    | some e => exfalso; simp only [addMember, hurl] at h; cases h
    | none =>
      cases hfr : tmFreshName (tmNames reg) (rn.getD card.name) with
      | none => exfalso; simp only [addMember, hurl, hfr] at h; cases h
      | some n =>
        rw [tmFreshName] at hfr
        obtain ⟨k, _, hn, hfree, hall⟩ :=
          tmFreshAux_spec (tmNames reg) (rn.getD card.name) _ 0 n hfr
        refine ⟨card, n, rfl, ?_, ?_, ⟨k, hn, fun j hj => hall j (Nat.zero_le j) hj⟩, ?_⟩
        · simp only [addMember, hurl]
          rw [show tmFreshName (tmNames reg) (rn.getD card.name) = some n from hfr]
        · rw [hn]; exact hfree
        · simp only [addMember, hurl]
          rw [show tmFreshName (tmNames reg) (rn.getD card.name) = some n from hfr]

/-- **C4** (witness).  Adding an agent whose peer-reported name `Test
Agent` collides with an existing key stores it as `Test Agent_1`, touching
no existing entry. -/
theorem c4_add_resolves_unique_name_witness :
    ∃ card n,
      (some (⟨"Test Agent", "desc", false⟩ : AgentCard)) = some card
      ∧ (addMember [⟨"Test Agent", "http://a", "d", false, .configured, none⟩]
          "http://b" none (some ⟨"Test Agent", "desc", false⟩) 0).1.agentName = some n
      ∧ (tmNames [⟨"Test Agent", "http://a", "d", false, .configured, none⟩]).contains n
          = false
      ∧ (∃ k, n = tmCandidate ((none : Option String).getD card.name) k
          ∧ ∀ j, j < k →
              (tmNames [⟨"Test Agent", "http://a", "d", false, .configured, none⟩]).contains
                (tmCandidate ((none : Option String).getD card.name) j) = true)
      ∧ (addMember [⟨"Test Agent", "http://a", "d", false, .configured, none⟩]
          "http://b" none (some ⟨"Test Agent", "desc", false⟩) 0).2
          = [⟨"Test Agent", "http://a", "d", false, .configured, none⟩]
            ++ [⟨n, "http://b", card.description, card.streaming, .dynamic, some 0⟩] :=
  c4_add_resolves_unique_name
    [⟨"Test Agent", "http://a", "d", false, .configured, none⟩]
    "http://b" none (some ⟨"Test Agent", "desc", false⟩) 0 (by decide)
